import Mathlib

/-!
Verification of the mining-plan pipeline of the EVE University Wiki MCP server
(source file: eve_wiki_mcp_server_docker.py).  Python functions are shallowly
embedded as executable Lean definitions; machine strings are Lean strings
(lists of characters), Python floats entering the planner are modelled as
rationals (the planner only compares and formats them), Python ints as Int,
and the wiki HTTP layer as oracle functions supplied by the caller.
-/

namespace EveWikiMCP

/-! ### Python string primitives -/

/-- Boolean test that the first list is an initial segment of the second. -/
def pyStartsWith : List Char → List Char → Bool
  | [], _ => true
  | _ :: _, [] => false
  | a :: xs, b :: ys => a == b && pyStartsWith xs ys

/-- Helper for the Python substring operator: does the needle occur inside the hay? -/
def hasInfixAux (needle : List Char) : List Char → Bool
  | [] => needle.isEmpty
  | c :: rest => pyStartsWith needle (c :: rest) || hasInfixAux needle rest

/-- Python `needle in hay` on strings (substring containment). -/
def pyIn (needle hay : String) : Bool :=
  hasInfixAux needle.data hay.data

/-- Python `str.lower()` (ASCII case folding, which covers all strings this program compares). -/
def pyLower (s : String) : String :=
  ⟨s.data.map Char.toLower⟩

/-- Helper for `pyStrip`: drop leading whitespace characters. -/
def dropWS (l : List Char) : List Char :=
  l.dropWhile Char.isWhitespace

/-- Python `str.strip()`: remove whitespace from both ends. -/
def pyStrip (s : String) : String :=
  ⟨((dropWS s.data).reverse.dropWhile Char.isWhitespace).reverse⟩

/-- Helper for Python `str.split()`: accumulate the current token while scanning. -/
def splitWSAux : List Char → List Char → List (List Char)
  | [], acc => if acc.isEmpty then [] else [acc.reverse]
  | c :: rest, acc =>
    if c.isWhitespace then
      if acc.isEmpty then splitWSAux rest [] else acc.reverse :: splitWSAux rest []
    else splitWSAux rest (c :: acc)

/-- Python `str.split()` with no argument: whitespace-delimited tokens, empties discarded. -/
def pySplit (s : String) : List String :=
  (splitWSAux s.data []).map (fun l => ⟨l⟩)

/-- Python slice `s[:n]` on a string. -/
def pyTake (n : Nat) (s : String) : String :=
  ⟨s.data.take n⟩

/-- First character of a string, if any; used to separate line shapes. -/
def firstChar (s : String) : Option Char :=
  s.data.head?

/-- Strict lexicographic comparison of character lists by code point,
matching Python string `<`. -/
def charsLT : List Char → List Char → Bool
  | [], [] => false
  | [], _ :: _ => true
  | _ :: _, [] => false
  | a :: xs, b :: ys =>
    if a < b then true
    else if b < a then false
    else charsLT xs ys

/-! ### Numeric formatting helpers (Python f-string renderings) -/

/-- Fractional decimal digits of a rational in `[0,1)`, with fuel. -/
def fracDigits : Nat → Rat → List Char
  | 0, _ => []
  | fuel + 1, q =>
    if q = 0 then []
    else
      let q10 := q * 10
      let d := ⌊q10⌋.toNat
      Char.ofNat (48 + d) :: fracDigits fuel (q10 - ⌊q10⌋)

/-- Python `repr` of a non-integer-typed bound as it appears in f-strings
(`0.5` prints as "0.5", `8.0` as "8.0"). -/
def pyFloatRepr (q : Rat) : String :=
  let sign := if q < 0 then "-" else ""
  let a := |q|
  let ip := (⌊a⌋).toNat
  let ds := fracDigits 17 (a - ⌊a⌋)
  sign ++ toString ip ++ "." ++ (if ds.isEmpty then "0" else ⟨ds⟩)

/-- Python `int(x)` rendering of an integral rational bound. -/
def pyIntRepr (q : Rat) : String :=
  toString q.floor

/-- Group reversed decimal digits in threes, inserting commas. -/
def commaAux : Nat → List Char → List Char
  | _, [] => []
  | 0, c :: rest => ',' :: c :: commaAux 2 rest
  | k + 1, c :: rest => c :: commaAux k rest

/-- Python `f-string` thousands formatting of an integer. -/
def fmtComma (n : Int) : String :=
  let ds := (toString n.natAbs).data.reverse
  (if n < 0 then "-" else "") ++ ⟨(commaAux 3 ds).reverse⟩

/-- Round half to even at one decimal place, as Python float formatting does. -/
def roundHalfEven10 (q : Rat) : Int :=
  let s := q * 10
  let fl := ⌊s⌋
  let frac := s - fl
  if frac > 1 / 2 then fl + 1
  else if frac < 1 / 2 then fl
  else if fl % 2 = 0 then fl else fl + 1

/-- Python format spec `:.1f` on the planner's hours value. -/
def fmtFloat1 (q : Rat) : String :=
  let n := roundHalfEven10 q
  let a := n.natAbs
  (if n < 0 then "-" else "") ++ toString (a / 10) ++ "." ++ toString (a % 10)

/-! ### build_wiki_url -/

/-- UTF-8 bytes of a character, as a list of byte values. -/
def utf8BytesOfChar (c : Char) : List Nat :=
  let n := c.toNat
  if n < 128 then [n]
  else if n < 2048 then [192 + n / 64, 128 + n % 64]
  else if n < 65536 then [224 + n / 4096, 128 + (n / 64) % 64, 128 + n % 64]
  else [240 + n / 262144, 128 + (n / 4096) % 64, 128 + (n / 64) % 64, 128 + n % 64]

/-- Uppercase hexadecimal digit. -/
def hexDigit (n : Nat) : Char :=
  if n < 10 then Char.ofNat (48 + n) else Char.ofNat (55 + n)

/-- Byte kept verbatim by `urllib.parse.quote` (letters, digits, `_.-~`). -/
def isUnreservedByte (b : Nat) : Bool :=
  (65 ≤ b && b ≤ 90) || (97 ≤ b && b ≤ 122) || (48 ≤ b && b ≤ 57) ||
    b == 95 || b == 46 || b == 45 || b == 126

/-- Python `urllib.parse.quote(s, safe=...)` with an empty safe set. -/
def pyQuote (s : String) : String :=
  ⟨(s.data.foldr (fun c acc => utf8BytesOfChar c ++ acc) []).foldr
    (fun b acc =>
      (if isUnreservedByte b then [Char.ofNat b]
       else ['%', hexDigit (b / 16), hexDigit (b % 16)]) ++ acc) []⟩

/-- Python `title.replace(' ', '_')`. -/
def replaceSpaces (s : String) : String :=
  ⟨s.data.map (fun c => if c = ' ' then '_' else c)⟩

/-- Source `build_wiki_url`: safe wiki URL from a page title. -/
def build_wiki_url (title : String) : String :=
  "https://wiki.eveuniversity.org/wiki/" ++ pyQuote (replaceSpaces title)

/-! ### Scoring constants and score_mining_candidate -/

/-- Source `MINING_SEED_QUERIES`. -/
def MINING_SEED_QUERIES : List String :=
  ["EVE University mining guide", "Venture", "Mining frigates", "Career Agents mining",
   "Highsec mining safety", "Ore and mining mechanics", "Fitting ships for mining"]

/-- Source `MINING_RELEVANCE_KEYWORDS`, in the order of the Python dict literal. -/
def MINING_RELEVANCE_KEYWORDS : List (String × Nat) :=
  [("mining", 8), ("venture", 8), ("ore", 5), ("asteroid", 4), ("highsec", 4),
   ("safety", 4), ("career", 3), ("agent", 3), ("fit", 3), ("fitting", 3),
   ("barge", 2), ("alpha", 2)]

/-- Source `MINING_PLAN_SECTION_ORDER`. -/
def MINING_PLAN_SECTION_ORDER : List String :=
  ["Profile + Assumptions", "Day 1 Plan", "Week 1 Plan", "Shopping List",
   "Skill Priorities (Alpha-safe)", "Safety and Loss Prevention", "If Things Go Wrong",
   "Next Session Check-in Questions", "Sources"]

/-- Source `SECTION_KEYWORDS`, in the order of the Python dict literal. -/
def SECTION_KEYWORDS : List (String × List String) :=
  [("Profile + Assumptions", ["mining", "career", "venture"]),
   ("Day 1 Plan", ["career", "venture", "mining"]),
   ("Week 1 Plan", ["mining", "ore", "venture"]),
   ("Shopping List", ["venture", "fitting", "mining"]),
   ("Skill Priorities (Alpha-safe)", ["skills", "mining", "alpha"]),
   ("Safety and Loss Prevention", ["safety", "highsec", "gank"]),
   ("If Things Go Wrong", ["safety", "venture", "mining"]),
   ("Next Session Check-in Questions", ["mining", "career"])]

/-- Source `score_mining_candidate`: keyword weights plus one point per query token found. -/
def score_mining_candidate (title description query : String) : Nat :=
  let text := pyLower (title ++ " " ++ description)
  let base := MINING_RELEVANCE_KEYWORDS.foldl
    (fun acc kw => if pyIn kw.1 text then acc + kw.2 else acc) 0
  (pySplit (pyLower query)).foldl
    (fun acc tok => if pyIn tok text then acc + 1 else acc) base

/-! ### Candidates, merge policy, and ranking (gather_mining_wiki_context, lines 294-348) -/

/-- Candidate record: one wiki page observation or one stored candidate
(the Python dicts have the same four fields in both roles). -/
structure Candidate where
  title : String
  description : String
  url : String
  score : Nat
deriving DecidableEq, Repr

/-- One merge step of the candidate map.  The map is the Python dict
`candidates` keyed by lowercased title, with insertion order preserved.
A new key is appended; an existing key keeps its position and its stored
title, and its score/description/url are overwritten exactly when the new
observation's score is strictly greater. -/
def updateAssoc : List (String × Candidate) → Candidate → List (String × Candidate)
  | [], o => [(pyLower o.title, o)]
  | (k, c) :: rest, o =>
    if k = pyLower o.title then
      (k, if c.score < o.score then ⟨c.title, o.description, o.url, o.score⟩ else c) :: rest
    else
      (k, c) :: updateAssoc rest o

/-- Fold a stream of observations through the merge policy, starting from the
empty candidate map. -/
def mergeObsList (l : List Candidate) : List (String × Candidate) :=
  l.foldl updateAssoc []

/-- Sort-order test used for the ranked list: `a` may precede `b` exactly when
the Python key `(score, title.lower())` of `a` is lexicographically at least
that of `b` (the source sorts ascending by that key with `reverse=True`). -/
def candLE (a b : Candidate) : Bool :=
  if b.score < a.score then true
  else if a.score = b.score then !(charsLT (pyLower a.title).data (pyLower b.title).data)
  else false

/-- Insert a candidate into a list sorted by `candLE`. -/
def insertDesc (x : Candidate) : List Candidate → List Candidate
  | [] => [x]
  | y :: rest => if candLE x y then x :: y :: rest else y :: insertDesc x rest

/-- Sort candidates by score descending, then lowercased title descending.
The Python `sorted(..., key=(score, title.lower()), reverse=True)` realises the
same order; all keys in the candidate map are distinct, so any sorting
algorithm yields the identical list. -/
def sortCands (l : List Candidate) : List Candidate :=
  l.foldr insertDesc []

/-- Default candidate synthesized when every seed search failed
(source lines 340-348). -/
def defaultCandidate : Candidate :=
  ⟨"Mining", "General mining overview", build_wiki_url "Mining", 1⟩

/-- Ranking phase of `gather_mining_wiki_context`: merge the observation
stream, sort the candidate map's values, and fall back to the single default
candidate when the result is empty. -/
def rank_observations (l : List Candidate) : List Candidate :=
  let r := sortCands ((mergeObsList l).map Prod.snd)
  if r.isEmpty then [defaultCandidate] else r

/-! ### Wiki oracles and gather_mining_wiki_context -/

/-- Result of one opensearch seed query: an error, or parallel title,
description, and url lists. -/
inductive SearchResult where
  | error
  | ok (titles descriptions urls : List String)

/-- One page of a MediaWiki extracts response, as read by
`_extract_summary_from_query_response`. -/
structure QueryPage where
  missing : Bool
  extract : String

/-- Result of one summary query: an error, or the pages mapping
(in iteration order). -/
inductive SummaryResult where
  | error
  | ok (pages : List QueryPage)

/-- Result of one full-page fetch: an error, a conversion failure
(the exception branch), or the converted markdown text. -/
inductive PageResult where
  | error
  | parseFail
  | ok (markdown : String)

/-- Source `_extract_summary_from_query_response`. -/
def extractSummary (pages : List QueryPage) : String :=
  match pages with
  | [] => ""
  | page :: _ =>
    if page.missing then ""
    else if page.extract = "" then ""
    else pyStrip page.extract

/-- Observations produced from one successful opensearch response: missing
descriptions default to empty, and a missing or empty url is replaced by the
built wiki url (source lines 316-319). -/
def obsOfSearchAux (query : String) (descriptions urls : List String) :
    Nat → List String → List Candidate
  | _, [] => []
  | idx, title :: rest =>
    let desc := descriptions.getD idx ""
    let u := urls.getD idx ""
    let url := if u = "" then build_wiki_url title else u
    ⟨title, desc, url, score_mining_candidate title desc query⟩ ::
      obsOfSearchAux query descriptions urls (idx + 1) rest

/-- Search phase over the fixed seed queries: the observation stream in
encounter order, and the failure tags in encounter order. -/
def searchPhase (s : String → SearchResult) : List Candidate × List String :=
  MINING_SEED_QUERIES.foldl
    (fun acc q =>
      match s q with
      | SearchResult.error => (acc.1, acc.2 ++ ["search:" ++ q])
      | SearchResult.ok ts ds us => (acc.1 ++ obsOfSearchAux q ds us 0 ts, acc.2))
    ([], [])

/-- Lookup in an association list of strings with a default. -/
def lookupD (m : List (String × String)) (k d : String) : String :=
  match m.find? (fun kv => kv.1 == k) with
  | some kv => kv.2
  | none => d

/-- Summary phase: fetch intro extracts for the top 8 ranked candidates,
tagging failures and keeping only non-empty extracts (source lines 350-372). -/
def summariesPhase (qr : String → SummaryResult) (ranked : List Candidate) :
    List (String × String) × List String :=
  (ranked.take 8).foldl
    (fun acc c =>
      match qr c.title with
      | SummaryResult.error => (acc.1, acc.2 ++ ["summary:" ++ c.title])
      | SummaryResult.ok pages =>
        let t := extractSummary pages
        (if t = "" then acc.1 else acc.1 ++ [(c.title, t)], acc.2))
    ([], [])

/-- Page-snippet phase: for the top 3 ranked candidates with a summary shorter
than 180 characters, fetch the rendered page, convert, strip, and keep the
first 600 characters; failures are tagged (source lines 374-397). -/
def pagesPhase (pr : String → PageResult) (summaries : List (String × String))
    (ranked : List Candidate) : List (String × String) × List String :=
  (ranked.take 3).foldl
    (fun acc c =>
      if 180 ≤ (lookupD summaries c.title "").length then acc
      else
        match pr c.title with
        | PageResult.error => (acc.1, acc.2 ++ ["page:" ++ c.title])
        | PageResult.parseFail => (acc.1, acc.2 ++ ["page-parse:" ++ c.title])
        | PageResult.ok md => (acc.1 ++ [(c.title, pyTake 600 (pyStrip md))], acc.2))
    ([], [])

/-- Section-citation phase: first ranked candidate whose lowercased
title+description contains any of the section's keywords; the top candidate's
url is the fallback (source lines 399-409). -/
def sectionCitations (ranked : List Candidate) : List (String × String) :=
  let fallback := ((ranked.head?).map (fun c => c.url)).getD ""
  SECTION_KEYWORDS.map
    (fun sk =>
      match ranked.find?
          (fun c => sk.2.any (fun kw => pyIn kw (pyLower (c.title ++ " " ++ c.description)))) with
      | some c => (sk.1, if c.url = "" then fallback else c.url)
      | none => (sk.1, fallback))

/-- Gathered context record.  The Boolean field `hasFailures` models the
source's `partial` flag (a Lean keyword), set to `len(errors) > 0`. -/
structure GatheredContext where
  ranked_candidates : List Candidate
  summaries : List (String × String)
  page_snippets : List (String × String)
  errors : List String
  hasFailures : Bool
  section_citations : List (String × String)

/-- Source `gather_mining_wiki_context`, parametrized by the three wiki
oracles (search, extract, full page); the HTTP layer is outside the core. -/
def gather_mining_wiki_context (s : String → SearchResult) (qr : String → SummaryResult)
    (pr : String → PageResult) : GatheredContext :=
  let sp := searchPhase s
  let ranked := rank_observations sp.1
  let su := summariesPhase qr ranked
  let pg := pagesPhase pr su.1 ranked
  let errs := sp.2 ++ su.2 ++ pg.2
  { ranked_candidates := ranked
    summaries := su.1
    page_snippets := pg.1
    errors := errs
    hasFailures := decide (0 < errs.length)
    section_citations := sectionCitations ranked }

/-! ### Planner profile and build_mining_plan_markdown (source lines 429-582) -/

/-- Validated planner profile.  `hours_per_session` is a rational standing for
the Python float, the two integer fields are `Int`, and the remaining fields
are the validated strings. -/
structure Profile where
  hours_per_session : Rat
  sessions_per_week : Int
  starting_isk : Int
  experience_level : String
  risk_preference : String
  current_assets : String
  recent_outcome : String
  questions : String

/-- Bounds and invariants that `normalize_mining_plan_inputs` guarantees for
every profile it lets through. -/
def ValidProfile (p : Profile) : Prop :=
  1 / 2 ≤ p.hours_per_session ∧ p.hours_per_session ≤ 8 ∧
  1 ≤ p.sessions_per_week ∧ p.sessions_per_week ≤ 14 ∧
  0 ≤ p.starting_isk ∧ p.starting_isk ≤ 10000000000 ∧
  p.experience_level = "brand_new" ∧ p.risk_preference = "conservative" ∧
  p.current_assets.length ≤ 1200 ∧ p.recent_outcome.length ≤ 1200 ∧
  p.questions.length ≤ 1200

instance (p : Profile) : Decidable (ValidProfile p) := by
  unfold ValidProfile
  infer_instance

/-- Day-1 task count: 3, 4, or 5 selected by session length (source lines 438-443). -/
def day1TaskCount (hours : Rat) : Nat :=
  if hours ≤ 1 then 3 else if hours ≤ 5 / 2 then 4 else 5

/-- Recovery-mode test on the lowercased recent outcome (source line 447). -/
def recoveryMode (ro : String) : Bool :=
  (["lost", "killed", "ganked", "destroyed", "death"]).any (fun t => pyIn t ro)

/-- Low-ISK-recovery test on the lowercased recent outcome (source line 448). -/
def lowIskRecovery (ro : String) : Bool :=
  (["broke", "low isk", "no isk", "can't afford"]).any (fun t => pyIn t ro)

/-- Confusion-mode test on the lowercased recent outcome (source line 449). -/
def confusionMode (ro : String) : Bool :=
  (["stuck", "confused", "overwhelmed", "not sure", "dont know", "don't know"]).any
    (fun t => pyIn t ro)

/-- The four fallback-guidance sentences, in branch order: recovery, low ISK,
confusion, generic (source lines 461-468). -/
def fallbackSentences : List String :=
  ["You reported a ship loss. Switch to a safer high-sec loop for the next 2 sessions.",
   "You reported low ISK pressure. Run a low-capital recovery loop before upgrades.",
   "You reported confusion/stall. Use a simplified 3-task session to regain momentum.",
   "If progress stalls, fall back to a short high-sec routine and reassess after one session."]

/-- Fallback-guidance selection: the first matching branch wins
(recovery > low ISK > confusion > generic). -/
def fallbackIntro (ro : String) : String :=
  if recoveryMode ro then fallbackSentences[0]!
  else if lowIskRecovery ro then fallbackSentences[1]!
  else if confusionMode ro then fallbackSentences[2]!
  else fallbackSentences[3]!

/-- Confidence sentence selected by the context's degraded flag (source lines 451-455). -/
def confidenceLine (ctx : GatheredContext) : String :=
  if ctx.hasFailures then
    "Reduced confidence: some wiki pages timed out or failed; plan uses partial context and conservative defaults."
  else
    "Normal confidence: Wiki retrieval completed for core mining pages."

/-- Shopping-list header: three tiers by starting ISK, the high-capital check
winning (source lines 457-459). -/
def shoppingHeader (isk : Int) : String :=
  let h := if isk ≤ 0 then "Start with low-capital purchases only."
           else "Use your starting ISK to front-load survivability."
  if 2000000 ≤ isk then "Prioritize a complete Venture fitting and spare replacements." else h

/-- Source `_format_source`: the section's citation url, defaulting to the
Mining overview page. -/
def format_source (sectionName : String) (ctx : GatheredContext) : String :=
  let url := lookupD ctx.section_citations sectionName ""
  "Source: " ++ (if url = "" then build_wiki_url "Mining" else url)

/-- The five fixed Day-1 tasks (source lines 470-476). -/
def day1AllItems : List String :=
  ["Complete the mining-focused Career Agent steps and accept all tutorial rewards.",
   "Acquire or verify access to a Venture hull and fit basic mining modules.",
   "Run a short high-sec mining session and record ISK earned, cargo cycles, and travel time.",
   "Create one bookmark for station tether/dock and one for your preferred belt entry.",
   "Set overview and d-scan habits before undocking again."]

/-- Day-1 items: prefix of the fixed task list selected by session length. -/
def day1Items (hours : Rat) : List String :=
  day1AllItems.take (day1TaskCount hours)

/-- Week-1 items; the second is replaced by the simplified version in
confusion mode (source lines 478-487). -/
def week1Items (weekTarget : Int) (confusion : Bool) : List String :=
  ["Run " ++
     (toString weekTarget ++ " mining sessions in high-sec with a short pre-undock safety check."),
   if confusion then "Keep each session to three goals: undock safely, fill hold once, dock safely."
   else "After each session, review: ISK/hour, number of interruptions, and risk events.",
   "Upgrade fitting only when you can afford replacement of your current ship and modules.",
   "Practice route discipline: avoid predictable belts when local activity spikes.",
   "At end of week, choose one improvement goal: cycle uptime, hauling efficiency, or survival habits."]

/-- Python `f"{idx + 1}. {item}"` enumeration starting at `n`. -/
def numberedFrom (n : Nat) : List String → List String
  | [] => []
  | item :: rest => (toString n ++ ". " ++ item) :: numberedFrom (n + 1) rest

/-- Sources-section lines: up to the dedup, one `- title: url` line per
candidate with a fresh non-empty url (source lines 562-569). -/
def sourceLinesAux : List Candidate → List String → List String
  | [], _ => []
  | c :: rest, seen =>
    if c.url = "" || seen.contains c.url then sourceLinesAux rest seen
    else ("- " ++ (c.title ++ (": " ++ c.url))) :: sourceLinesAux rest (seen ++ [c.url])

/-- Sources entries for a context: first 10 ranked candidates, deduplicated by url. -/
def sourcesList (ctx : GatheredContext) : List String :=
  sourceLinesAux (ctx.ranked_candidates.take 10) []

/-- Current-assets line value: the stripped field or the placeholder (source line 436). -/
def assetsOf (p : Profile) : String :=
  if pyStrip p.current_assets = "" then "No assets provided" else pyStrip p.current_assets

/-- Retry note emitted when any gathering error was recorded (source lines 574-580). -/
def retryNote : String :=
  "Note: Some wiki requests failed during planning. Retry for fresher/complete citations."

/-- Document title and blank line (source lines 489-491). -/
def titleChunk : List String :=
  ["# Newbro Mining Copilot Plan", ""]

/-- Profile + Assumptions section (source lines 492-500). -/
def profileChunk (p : Profile) (ctx : GatheredContext) : List String :=
  ["## Profile + Assumptions",
   "- Experience level: " ++ p.experience_level,
   "- Risk preference: " ++ p.risk_preference,
   "- Time budget: " ++
     (fmtFloat1 p.hours_per_session ++
       ("h/session, " ++ (toString p.sessions_per_week ++ " sessions/week"))),
   "- Starting ISK: " ++ fmtComma p.starting_isk,
   "- Current assets: " ++ assetsOf p,
   "- Confidence: " ++ confidenceLine ctx,
   format_source "Profile + Assumptions" ctx,
   ""]

/-- Day 1 Plan section (source lines 501-508). -/
def day1Chunk (p : Profile) (ctx : GatheredContext) : List String :=
  "## Day 1 Plan" :: numberedFrom 1 (day1Items p.hours_per_session) ++
    ["Completion criteria: one safe undock-to-dock mining run with notes captured.",
     format_source "Day 1 Plan" ctx,
     ""]

/-- Week 1 Plan section (source lines 509-516). -/
def week1Chunk (p : Profile) (ctx : GatheredContext) : List String :=
  "## Week 1 Plan" ::
    numberedFrom 1
      (week1Items (min p.sessions_per_week 7) (confusionMode (pyLower p.recent_outcome))) ++
    ["Completion criteria: at least 3 logged sessions and one deliberate fitting/behavior improvement.",
     format_source "Week 1 Plan" ctx,
     ""]

/-- Shopping List section (source lines 518-524). -/
def shoppingChunk (p : Profile) (ctx : GatheredContext) : List String :=
  ["## Shopping List",
   "- " ++ shoppingHeader p.starting_isk,
   "- Venture hull (or replacement hull if already owned).",
   "- Basic mining lasers and low-cost tank modules before yield upgrades.",
   "- Mobile reserve: keep enough ISK for one full replacement before risky upgrades.",
   format_source "Shopping List" ctx,
   ""]

/-- Skill Priorities section (source lines 525-531). -/
def skillsChunk (ctx : GatheredContext) : List String :=
  ["## Skill Priorities (Alpha-safe)",
   "1. Core fitting/powergrid/capacitor support to stabilize your fit.",
   "2. Mining throughput and mining frigate support skills.",
   "3. Basic navigation and survivability skills before yield-only specialization.",
   "4. Queue short skills first for immediate quality-of-life gains.",
   format_source "Skill Priorities (Alpha-safe)" ctx,
   ""]

/-- Safety and Loss Prevention section (source lines 532-538). -/
def safetyChunk (ctx : GatheredContext) : List String :=
  ["## Safety and Loss Prevention",
   "1. Mine in high-sec systems with manageable local traffic and clear docking options.",
   "2. Treat every undock as disposable: never fly what you cannot replace.",
   "3. Pre-align and monitor local/d-scan; dock immediately on suspicious spikes.",
   "4. Avoid autopilot hauling of ore value you cannot lose.",
   format_source "Safety and Loss Prevention" ctx,
   ""]

/-- If Things Go Wrong section (source lines 539-544). -/
def wrongChunk (p : Profile) (ctx : GatheredContext) : List String :=
  ["## If Things Go Wrong",
   "- " ++ fallbackIntro (pyLower p.recent_outcome),
   "- Recovery loop: one short safe run, sell ore, refill replacement fund, reassess fit.",
   "- If two losses happen in a row, downgrade risk and focus on safety drills only.",
   format_source "If Things Go Wrong" ctx,
   ""]

/-- The numbered check-in questions: four fixed ones, and a fifth exactly when
the stripped freeform questions field is non-empty (source lines 545-553). -/
def checkinItems (p : Profile) : List String :=
  ["1. Did you complete a safe undock -> mine -> dock cycle?",
   "2. What blocked you most: travel, fitting, safety pressure, or income?",
   "3. Do you currently have replacement ISK for your active ship?",
   "4. Which single change should the next plan optimize first?"] ++
    (if pyStrip p.questions = "" then []
     else ["5. Player focus question to address next: " ++ pyStrip p.questions])

/-- Next Session Check-in Questions section (source lines 545-557). -/
def checkinChunk (p : Profile) (ctx : GatheredContext) : List String :=
  "## Next Session Check-in Questions" :: checkinItems p ++
    [format_source "Next Session Check-in Questions" ctx,
     ""]

/-- Sources section (source lines 558-572). -/
def sourcesChunk (ctx : GatheredContext) : List String :=
  "## Sources" ::
    (sourcesList ctx ++
      (if (sourcesList ctx).isEmpty then ["- Mining: " ++ build_wiki_url "Mining"] else []))

/-- Trailing retry note, present exactly when gathering errors were recorded
(source lines 574-580). -/
def noteChunk (ctx : GatheredContext) : List String :=
  if ctx.errors.isEmpty then [] else ["", retryNote]

/-- All lines of the rendered plan, in source order. -/
def planLines (p : Profile) (ctx : GatheredContext) : List String :=
  titleChunk ++ profileChunk p ctx ++ day1Chunk p ctx ++ week1Chunk p ctx ++
    shoppingChunk p ctx ++ skillsChunk ctx ++ safetyChunk ctx ++ wrongChunk p ctx ++
    checkinChunk p ctx ++ sourcesChunk ctx ++ noteChunk ctx

/-- Source `build_mining_plan_markdown`: the lines joined by newlines. -/
def build_mining_plan_markdown (p : Profile) (ctx : GatheredContext) : String :=
  String.intercalate "\n" (planLines p ctx)

/-! ### Input validation (validate_numeric_input etc., normalize_mining_plan_inputs) -/

/-- Dynamic Python value of a planner argument.  Booleans are a separate
constructor, although Python counts them as ints, because the validators test
`isinstance(value, bool)` explicitly; `other` stands for any value of a type
the validators reject outright. -/
inductive PyVal where
  | int (n : Int)
  | float (q : Rat)
  | bool (b : Bool)
  | str (s : String)
  | none
  | other
deriving DecidableEq, Repr

/-- Python `isinstance(value, bool)`. -/
def isPyBool : PyVal → Bool
  | PyVal.bool _ => true
  | _ => false

/-- Python `isinstance(value, int)` (booleans are ints in Python). -/
def isPyInt : PyVal → Bool
  | PyVal.int _ => true
  | PyVal.bool _ => true
  | _ => false

/-- Python `isinstance(value, (int, float))`. -/
def isPyNumber : PyVal → Bool
  | PyVal.int _ => true
  | PyVal.float _ => true
  | PyVal.bool _ => true
  | _ => false

/-- Python `isinstance(value, str)`. -/
def isPyStr : PyVal → Bool
  | PyVal.str _ => true
  | _ => false

/-- Numeric value of a Python number, as a rational. -/
def pyNumVal : PyVal → Rat
  | PyVal.int n => n
  | PyVal.float q => q
  | PyVal.bool b => if b then 1 else 0
  | _ => 0

/-- Integer value of a Python int. -/
def pyIntVal : PyVal → Int
  | PyVal.int n => n
  | PyVal.bool b => if b then 1 else 0
  | _ => 0

/-- String value of a Python str. -/
def pyStrVal : PyVal → String
  | PyVal.str s => s
  | _ => ""

/-- Source `validate_numeric_input` (lines 156-175): type check first
(rejecting booleans explicitly), then the range check. -/
def validate_numeric_input (value : PyVal) (minv maxv : Rat) (field : String)
    (integerOnly : Bool) : Bool × String :=
  if integerOnly then
    if !(isPyInt value) || isPyBool value then
      (false, field ++ " must be " ++ "an integer between " ++ pyIntRepr minv ++ " and " ++
        pyIntRepr maxv)
    else if pyNumVal value < minv || maxv < pyNumVal value then
      (false, field ++ " must be " ++ "between " ++ pyIntRepr minv ++ " and " ++ pyIntRepr maxv)
    else (true, "")
  else
    if !(isPyNumber value) || isPyBool value then
      (false, field ++ " must be " ++ "a number between " ++ pyFloatRepr minv ++ " and " ++
        pyFloatRepr maxv)
    else if pyNumVal value < minv || maxv < pyNumVal value then
      (false, field ++ " must be " ++ "between " ++ pyFloatRepr minv ++ " and " ++
        pyFloatRepr maxv)
    else (true, "")

/-- Source `validate_enum_input` (lines 178-184). -/
def validate_enum_input (value : PyVal) (allowed : List String) (field : String) :
    Bool × String :=
  match value with
  | PyVal.str s =>
    if allowed.contains s then (true, "")
    else (false, field ++ " must be " ++ "one of: " ++ String.intercalate ", " allowed)
  | _ => (false, field ++ " must be " ++ "one of: " ++ String.intercalate ", " allowed)

/-- Source `validate_optional_text_input` (lines 187-195). -/
def validate_optional_text_input (value : PyVal) (maxLen : Nat) (field : String) :
    Bool × String :=
  match value with
  | PyVal.str s =>
    if maxLen < s.length then (false, field ++ " exceeds maximum length of " ++ toString maxLen)
    else if pyIn "\x00" s then (false, field ++ " contains invalid characters")
    else (true, "")
  | _ => (false, field ++ " must be a string")

/-- The eight recognized planner argument names, in validation order. -/
def recognizedFields : List String :=
  ["hours_per_session", "sessions_per_week", "starting_isk", "experience_level",
   "risk_preference", "current_assets", "recent_outcome", "questions"]

/-- Default value of each recognized field (the Python `defaults` dict). -/
def defaultValue : String → PyVal
  | "hours_per_session" => PyVal.float (3 / 2)
  | "sessions_per_week" => PyVal.int 4
  | "starting_isk" => PyVal.int 0
  | "experience_level" => PyVal.str "brand_new"
  | "risk_preference" => PyVal.str "conservative"
  | "current_assets" => PyVal.str ""
  | "recent_outcome" => PyVal.str ""
  | "questions" => PyVal.str ""
  | _ => PyVal.none

/-- Raw lookup of a key in the argument bag (Python dict membership). -/
def lookupArg (args : List (String × PyVal)) (k : String) : Option PyVal :=
  (args.find? (fun kv => kv.1 == k)).map Prod.snd

/-- Field value after `defaults.copy(); normalized.update(arguments)`:
the caller's value when the key is present, the default otherwise. -/
def getField (args : List (String × PyVal)) (k : String) : PyVal :=
  match lookupArg args k with
  | some v => v
  | Option.none => defaultValue k

/-- Maximum freeform length (source `MINING_PLAN_MAX_FREEFORM_LENGTH`). -/
def MINING_PLAN_MAX_FREEFORM_LENGTH : Nat := 1200

/-- Source `normalize_mining_plan_inputs` (lines 217-275): apply defaults, run
the validators in order, and build the validated profile, or fail with the
first validator's message. -/
def normalize_mining_plan_inputs (args : List (String × PyVal)) : Option Profile × String :=
  let vh := getField args "hours_per_session"
  let vs := getField args "sessions_per_week"
  let vi := getField args "starting_isk"
  let ve := getField args "experience_level"
  let vr := getField args "risk_preference"
  let va := getField args "current_assets"
  let vo := getField args "recent_outcome"
  let vq := getField args "questions"
  let r1 := validate_numeric_input vh (1 / 2) 8 "hours_per_session" false
  if !r1.1 then (Option.none, r1.2) else
  let r2 := validate_numeric_input vs 1 14 "sessions_per_week" true
  if !r2.1 then (Option.none, r2.2) else
  let r3 := validate_numeric_input vi 0 10000000000 "starting_isk" true
  if !r3.1 then (Option.none, r3.2) else
  let r4 := validate_enum_input ve ["brand_new"] "experience_level"
  if !r4.1 then (Option.none, r4.2) else
  let r5 := validate_enum_input vr ["conservative"] "risk_preference"
  if !r5.1 then (Option.none, r5.2) else
  let r6 := validate_optional_text_input va MINING_PLAN_MAX_FREEFORM_LENGTH "current_assets"
  if !r6.1 then (Option.none, r6.2) else
  let r7 := validate_optional_text_input vo MINING_PLAN_MAX_FREEFORM_LENGTH "recent_outcome"
  if !r7.1 then (Option.none, r7.2) else
  let r8 := validate_optional_text_input vq MINING_PLAN_MAX_FREEFORM_LENGTH "questions"
  if !r8.1 then (Option.none, r8.2) else
  (Option.some
    { hours_per_session := pyNumVal vh
      sessions_per_week := pyIntVal vs
      starting_isk := pyIntVal vi
      experience_level := pyStrVal ve
      risk_preference := pyStrVal vr
      current_assets := pyStrVal va
      recent_outcome := pyStrVal vo
      questions := pyStrVal vq }, "")

/-- The `generate_newbro_mining_plan` branch of the tool dispatcher
(source lines 1002-1009), parametrized by the gathered context: a validation
failure returns the error message and never builds a plan. -/
def generate_newbro_mining_plan (args : List (String × PyVal)) (ctx : GatheredContext) :
    String :=
  match normalize_mining_plan_inputs args with
  | (Option.some p, _) => build_mining_plan_markdown p ctx
  | (Option.none, e) => "❌ " ++ e


/-! ### Order predicates and concrete oracles used by the verification -/

/-- Strict version of the ranking order that the sorted candidate list
satisfies: score strictly descending, ties broken by lowercased title
strictly descending (all stored candidates have distinct lowercased titles). -/
def rankStrictDesc (a b : Candidate) : Prop :=
  b.score < a.score ∨
    (a.score = b.score ∧ charsLT (pyLower b.title).data (pyLower a.title).data = true)

instance (a b : Candidate) : Decidable (rankStrictDesc a b) := by
  unfold rankStrictDesc
  infer_instance

/-- Ascending-tie sort check written from the specification's words
("score descending, ties broken by lowercased title ascending"); compared
against the implementation's actual order. -/
def rankedAscSpec : List Candidate → Bool
  | [] => true
  | [_] => true
  | a :: b :: rest =>
    (if b.score < a.score then true
     else if a.score = b.score then !(charsLT (pyLower b.title).data (pyLower a.title).data)
     else false) && rankedAscSpec (b :: rest)

/-- All observations carry pairwise distinct lowercased titles. -/
def distinctLowerTitles (l : List Candidate) : Prop :=
  l.Pairwise (fun a b => pyLower a.title ≠ pyLower b.title)

/-- Search oracle on which every seed query fails. -/
def failSearch : String → SearchResult :=
  fun _ => SearchResult.error

/-- Summary oracle on which every query fails. -/
def failSummary : String → SummaryResult :=
  fun _ => SummaryResult.error

/-- Page oracle on which every fetch fails. -/
def failPage : String → PageResult :=
  fun _ => PageResult.error

/-- Search oracle producing two zero-score candidates on one seed query:
a concrete run exhibiting the tie-breaking order of the ranker. -/
def tieSearch : String → SearchResult :=
  fun q => if q = "Venture" then SearchResult.ok ["Zz", "Aa"] ["", ""] ["u1", "u2"]
           else SearchResult.error

/-! ### Shared helper lemmas -/

theorem foldl_if_add_weight {α : Type} (p : α → Bool) (w : α → Nat) :
    ∀ (l : List α) (n : Nat),
      l.foldl (fun acc x => if p x then acc + w x else acc) n =
        n + ((l.filter p).map w).sum := by
  intro l
  induction l with
  | nil => simp
  | cons a rest ih =>
    intro n
    by_cases h : p a = true
    · simp [List.foldl_cons, h, ih, Nat.add_assoc]
    · simp only [Bool.not_eq_true] at h
      simp [List.foldl_cons, h, ih]

theorem foldl_if_count {α : Type} (p : α → Bool) :
    ∀ (l : List α) (n : Nat),
      l.foldl (fun acc x => if p x then acc + 1 else acc) n = n + l.countP p := by
  intro l
  induction l with
  | nil => simp
  | cons a rest ih =>
    intro n
    by_cases h : p a = true
    · simp [List.foldl_cons, h, ih, List.countP_cons]
      omega
    · simp only [Bool.not_eq_true] at h
      simp [List.foldl_cons, h, ih, List.countP_cons]

/-! ### C4: the scoring formula -/

/-- C4: for every title, description, and query, `score_mining_candidate`
equals the sum over the fixed keyword table of each weight whose keyword
occurs as a substring of the lowercased title-and-description haystack, plus
one for each whitespace-delimited token of the lowercased query occurring as
a substring of the same haystack. -/
theorem score_mining_candidate_eq_weighted_sum (title description query : String) :
    score_mining_candidate title description query =
      ((MINING_RELEVANCE_KEYWORDS.filter
          (fun kw => pyIn kw.1 (pyLower (title ++ " " ++ description)))).map Prod.snd).sum +
        (pySplit (pyLower query)).countP
          (fun tok => pyIn tok (pyLower (title ++ " " ++ description))) := by
  unfold score_mining_candidate
  rw [foldl_if_count, foldl_if_add_weight]
  simp

/-! ### C3: the merge policy -/

/-- C3: candidates are keyed by lowercased title.  A fresh key is appended to
the candidate map; an observation hitting a stored key overwrites the stored
score, description, and url exactly when its score is strictly greater, and on
an equal (or lower) score the first-seen entry is kept unchanged.  Two
observations whose titles agree up to case collapse to a single entry whose
surviving description and url come from the strictly-higher-scoring
observation, the first one winning ties. -/
theorem candidate_merge_policy :
    (∀ (m : List (String × Candidate)) (o : Candidate),
        (∀ kv ∈ m, kv.1 ≠ pyLower o.title) →
          updateAssoc m o = m ++ [(pyLower o.title, o)]) ∧
    (∀ (pre post : List (String × Candidate)) (k : String) (c o : Candidate),
        (∀ kv ∈ pre, kv.1 ≠ pyLower o.title) → k = pyLower o.title →
          updateAssoc (pre ++ (k, c) :: post) o =
            pre ++ (k, if c.score < o.score then ⟨c.title, o.description, o.url, o.score⟩ else c)
              :: post) ∧
    (∀ t1 t2 d1 d2 u1 u2 s1 s2, pyLower t1 = pyLower t2 →
        (mergeObsList [⟨t1, d1, u1, s1⟩, ⟨t2, d2, u2, s2⟩]).map Prod.snd =
          if s1 < s2 then [⟨t1, d2, u2, s2⟩] else [⟨t1, d1, u1, s1⟩]) := by
  have fresh : ∀ (m : List (String × Candidate)) (o : Candidate),
      (∀ kv ∈ m, kv.1 ≠ pyLower o.title) → updateAssoc m o = m ++ [(pyLower o.title, o)] := by
    intro m o
    induction m with
    | nil => intro _; rfl
    | cons kv rest ih =>
      intro h
      have hk : kv.1 ≠ pyLower o.title := h kv (List.mem_cons_self kv rest)
      obtain ⟨k, c⟩ := kv
      simp only [updateAssoc, if_neg hk, List.cons_append]
      rw [ih (fun kv hm => h kv (List.mem_cons_of_mem _ hm))]
  refine ⟨fresh, ?_, ?_⟩
  · intro pre post k c o
    induction pre with
    | nil =>
      intro _ hk
      simp only [List.nil_append, updateAssoc, if_pos hk]
    | cons kv rest ih =>
      intro h hk
      have hne : kv.1 ≠ pyLower o.title := h kv (List.mem_cons_self kv rest)
      obtain ⟨k0, c0⟩ := kv
      simp only [List.cons_append, updateAssoc, if_neg hne]
      exact congrArg (fun l => (k0, c0) :: l)
        (ih (fun kv hm => h kv (List.mem_cons_of_mem _ hm)) hk)
  · intro t1 t2 d1 d2 u1 u2 s1 s2 h
    have step1 : mergeObsList [⟨t1, d1, u1, s1⟩, ⟨t2, d2, u2, s2⟩] =
        updateAssoc [(pyLower t1, ⟨t1, d1, u1, s1⟩)] ⟨t2, d2, u2, s2⟩ := rfl
    rw [step1]
    have hk : pyLower t1 = pyLower (Candidate.mk t2 d2 u2 s2).title := h
    simp only [updateAssoc, if_pos hk]
    by_cases hs : s1 < s2
    · simp [hs]
    · simp [hs]

/-- Witness for C3 at the claim's own example: observations titled
"Mining" and "mining" collapse to one entry keeping the higher score's data. -/
theorem candidate_merge_policy_witness :
    pyLower "Mining" = pyLower "mining" ∧
      (mergeObsList [⟨"Mining", "d1", "u1", 2⟩, ⟨"mining", "d2", "u2", 5⟩]).map Prod.snd =
        [⟨"Mining", "d2", "u2", 5⟩] := by
  refine ⟨by decide, ?_⟩
  have h := candidate_merge_policy.2.2 "Mining" "mining" "d1" "d2" "u1" "u2" 2 5 (by decide)
  simpa using h

/-! ### Order lemmas for the ranking sort -/

theorem charsLT_asymm : ∀ {x y : List Char}, charsLT x y = true → charsLT y x = false := by
  intro x
  induction x with
  | nil =>
    intro y h
    cases y with
    | nil => simp [charsLT] at h
    | cons b ys => simp [charsLT]
  | cons a xs ih =>
    intro y h
    cases y with
    | nil => simp [charsLT] at h
    | cons b ys =>
      simp only [charsLT] at h ⊢
      rcases lt_trichotomy a b with hab | hab | hab
      · simp [hab, lt_asymm hab]
      · subst hab
        simp only [lt_irrefl, if_false] at h ⊢
        exact ih h
      · simp [hab, lt_asymm hab] at h

theorem charsLT_trans : ∀ {x y z : List Char},
    charsLT x y = true → charsLT y z = true → charsLT x z = true := by
  intro x
  induction x with
  | nil =>
    intro y z hxy hyz
    cases y with
    | nil => simp [charsLT] at hxy
    | cons b ys =>
      cases z with
      | nil => simp [charsLT] at hyz
      | cons c zs => simp [charsLT]
  | cons a xs ih =>
    intro y z hxy hyz
    cases y with
    | nil => simp [charsLT] at hxy
    | cons b ys =>
      cases z with
      | nil => simp [charsLT] at hyz
      | cons c zs =>
        simp only [charsLT] at hxy hyz ⊢
        rcases lt_trichotomy a b with hab | hab | hab
        · rcases lt_trichotomy b c with hbc | hbc | hbc
          · simp [lt_trans hab hbc]
          · subst hbc; simp [hab]
          · exfalso
            simp [hbc, lt_asymm hbc] at hyz
        · subst hab
          rcases lt_trichotomy a c with hac | hac | hac
          · simp [hac]
          · subst hac
            simp only [lt_irrefl, if_false] at hxy hyz ⊢
            exact ih hxy hyz
          · exfalso
            simp [hac, lt_asymm hac] at hyz
        · exfalso
          simp [hab, lt_asymm hab] at hxy

theorem charsLT_trichotomy : ∀ (x y : List Char),
    charsLT x y = true ∨ x = y ∨ charsLT y x = true := by
  intro x
  induction x with
  | nil =>
    intro y
    cases y with
    | nil => right; left; rfl
    | cons b ys => left; simp [charsLT]
  | cons a xs ih =>
    intro y
    cases y with
    | nil => right; right; simp [charsLT]
    | cons b ys =>
      rcases lt_trichotomy a b with hab | hab | hab
      · left; simp [charsLT, hab]
      · subst hab
        rcases ih ys with h | h | h
        · left; simp [charsLT, h]
        · right; left; rw [h]
        · right; right; simp [charsLT, h]
      · right; right; simp [charsLT, hab]

theorem string_eq_of_data {s t : String} (h : s.data = t.data) : s = t := by
  cases s
  cases t
  exact congrArg String.mk h

theorem charsLT_not_lt_trans {x y z : List Char} (h1 : charsLT x y = false)
    (h2 : charsLT y z = false) : charsLT x z = false := by
  by_contra h
  rw [Bool.not_eq_false] at h
  rcases charsLT_trichotomy y z with hyz | hyz | hyz
  · rw [hyz] at h2
    exact absurd h2 (by simp)
  · subst hyz
    rw [h] at h1
    exact absurd h1 (by simp)
  · have := charsLT_trans h hyz
    rw [this] at h1
    exact absurd h1 (by simp)

theorem candLE_total (a b : Candidate) : candLE a b = true ∨ candLE b a = true := by
  unfold candLE
  rcases Nat.lt_trichotomy a.score b.score with h | h | h
  · right
    simp [h]
  · rcases hc : charsLT (pyLower a.title).data (pyLower b.title).data with _ | _
    · left
      simp [h, Nat.lt_irrefl, hc]
    · right
      simp [h, Nat.lt_irrefl, charsLT_asymm hc]
  · left
    simp [h]

theorem candLE_trans {a b c : Candidate} (hab : candLE a b = true) (hbc : candLE b c = true) :
    candLE a c = true := by
  unfold candLE at hab hbc ⊢
  by_cases h1 : b.score < a.score
  · by_cases h2 : c.score < b.score
    · simp [Nat.lt_trans h2 h1]
    · by_cases h3 : b.score = c.score
      · have : c.score < a.score := by omega
        simp [this]
      · simp [h2, h3] at hbc
  · by_cases h4 : a.score = b.score
    · by_cases h2 : c.score < b.score
      · have : c.score < a.score := by omega
        simp [this]
      · by_cases h3 : b.score = c.score
        · have h5 : a.score = c.score := h4.trans h3
          have hna : ¬ c.score < a.score := by omega
          rw [if_neg h1, if_pos h4] at hab
          rw [if_neg h2, if_pos h3] at hbc
          rw [Bool.not_eq_true'] at hab hbc
          rw [if_neg hna, if_pos h5, charsLT_not_lt_trans hab hbc]
          rfl
        · simp [h2, h3] at hbc
    · simp [h1, h4] at hab

theorem insertDesc_perm (x : Candidate) (l : List Candidate) :
    (insertDesc x l).Perm (x :: l) := by
  induction l with
  | nil => exact List.Perm.refl _
  | cons y rest ih =>
    unfold insertDesc
    by_cases h : candLE x y
    · simp [h]
    · simp only [h, if_false]
      exact (ih.cons y).trans (List.Perm.swap x y rest)

theorem sortCands_perm (l : List Candidate) : (sortCands l).Perm l := by
  induction l with
  | nil => exact List.Perm.refl _
  | cons a rest ih =>
    unfold sortCands at ih ⊢
    simp only [List.foldr_cons]
    exact (insertDesc_perm a _).trans (ih.cons a)

theorem mem_insertDesc {z x : Candidate} {l : List Candidate} (h : z ∈ insertDesc x l) :
    z = x ∨ z ∈ l := by
  have := (insertDesc_perm x l).subset h
  simpa using this

theorem insertDesc_sorted {x : Candidate} {l : List Candidate}
    (hl : l.Pairwise (fun a b => candLE a b = true)) :
    (insertDesc x l).Pairwise (fun a b => candLE a b = true) := by
  induction l with
  | nil => simp [insertDesc]
  | cons y rest ih =>
    rcases List.pairwise_cons.mp hl with ⟨hy, hrest⟩
    unfold insertDesc
    by_cases h : candLE x y
    · simp only [h, if_true]
      refine List.pairwise_cons.mpr ⟨?_, hl⟩
      intro z hz
      rcases List.mem_cons.mp hz with rfl | hz2
      · exact h
      · exact candLE_trans h (hy z hz2)
    · simp only [h, if_false]
      refine List.pairwise_cons.mpr ⟨?_, ih hrest⟩
      intro z hz
      rcases mem_insertDesc hz with rfl | hz2
      · rcases candLE_total z y with h2 | h2
        · exact absurd h2 h
        · exact h2
      · exact hy z hz2

theorem sortCands_sorted (l : List Candidate) :
    (sortCands l).Pairwise (fun a b => candLE a b = true) := by
  induction l with
  | nil => simp [sortCands]
  | cons a rest ih =>
    unfold sortCands at ih ⊢
    simp only [List.foldr_cons]
    exact insertDesc_sorted ih

theorem candLE_strict {a b : Candidate} (h1 : candLE a b = true)
    (h2 : pyLower a.title ≠ pyLower b.title) : rankStrictDesc a b := by
  unfold candLE at h1
  by_cases hs : b.score < a.score
  · exact Or.inl hs
  · by_cases he : a.score = b.score
    · simp only [hs, if_false, he, if_true, Bool.not_eq_true'] at h1
      refine Or.inr ⟨he, ?_⟩
      rcases charsLT_trichotomy (pyLower a.title).data (pyLower b.title).data with h | h | h
      · rw [h] at h1
        exact absurd h1 (by simp)
      · exact absurd (string_eq_of_data h) h2
      · exact h
    · simp [hs, he] at h1

theorem updateAssoc_fresh : ∀ (m : List (String × Candidate)) (o : Candidate),
    (∀ kv ∈ m, kv.1 ≠ pyLower o.title) → updateAssoc m o = m ++ [(pyLower o.title, o)] := by
  intro m o
  induction m with
  | nil => intro _; rfl
  | cons kv rest ih =>
    intro h
    have hk : kv.1 ≠ pyLower o.title := h kv (List.mem_cons_self kv rest)
    obtain ⟨k, c⟩ := kv
    simp only [updateAssoc, if_neg hk, List.cons_append]
    exact congrArg (fun l => (k, c) :: l) (ih (fun kv hm => h kv (List.mem_cons_of_mem _ hm)))

theorem updateAssoc_fst_inv {m : List (String × Candidate)} {o : Candidate}
    (h : ∀ kv ∈ m, kv.1 = pyLower kv.2.title) :
    ∀ kv ∈ updateAssoc m o, kv.1 = pyLower kv.2.title := by
  induction m with
  | nil =>
    intro kv hm
    simp only [updateAssoc, List.mem_singleton] at hm
    subst hm
    rfl
  | cons kc rest ih =>
    obtain ⟨k, c⟩ := kc
    intro kv hm
    by_cases hk : k = pyLower o.title
    · simp only [updateAssoc, if_pos hk] at hm
      rcases List.mem_cons.mp hm with rfl | hm2
      · by_cases hs : c.score < o.score
        · simp only [hs, if_true]
          have := h (k, c) (List.mem_cons_self _ _)
          simpa using this
        · simp only [hs, if_false]
          exact h (k, c) (List.mem_cons_self _ _)
      · exact h kv (List.mem_cons_of_mem _ hm2)
    · simp only [updateAssoc, if_neg hk] at hm
      rcases List.mem_cons.mp hm with rfl | hm2
      · exact h (k, c) (List.mem_cons_self _ _)
      · exact ih (fun kw hw => h kw (List.mem_cons_of_mem _ hw)) kv hm2

theorem updateAssoc_keys (m : List (String × Candidate)) (o : Candidate) :
    (updateAssoc m o).map Prod.fst =
      if (m.map Prod.fst).contains (pyLower o.title) then m.map Prod.fst
      else m.map Prod.fst ++ [pyLower o.title] := by
  induction m with
  | nil => simp [updateAssoc]
  | cons kc rest ih =>
    obtain ⟨k, c⟩ := kc
    by_cases hk : k = pyLower o.title
    · simp [updateAssoc, hk]
    · have hbeq : (pyLower o.title == k) = false := by
        rw [beq_eq_false_iff_ne]
        exact Ne.symm hk
      simp only [updateAssoc, if_neg hk, List.map_cons, List.contains_cons, hbeq,
        Bool.false_or, ih]
      split_ifs
      · rfl
      · rfl

theorem updateAssoc_nodup {m : List (String × Candidate)} {o : Candidate}
    (h : (m.map Prod.fst).Nodup) : ((updateAssoc m o).map Prod.fst).Nodup := by
  rw [updateAssoc_keys]
  by_cases hc : (m.map Prod.fst).contains (pyLower o.title) = true
  · rw [if_pos hc]
    exact h
  · rw [if_neg hc]
    rw [Bool.not_eq_true] at hc
    have hnm : pyLower o.title ∉ m.map Prod.fst := by
      intro hmem
      rw [List.contains_eq_any_beq] at hc
      have : (m.map Prod.fst).any (fun x => pyLower o.title == x) = true := by
        refine List.any_eq_true.mpr ⟨pyLower o.title, hmem, by simp⟩
      rw [this] at hc
      exact absurd hc (by simp)
    simp [List.nodup_append, h, hnm]

theorem foldl_updateAssoc_inv : ∀ (l : List Candidate) (m : List (String × Candidate)),
    (∀ kv ∈ m, kv.1 = pyLower kv.2.title) → (m.map Prod.fst).Nodup →
      (∀ kv ∈ l.foldl updateAssoc m, kv.1 = pyLower kv.2.title) ∧
        ((l.foldl updateAssoc m).map Prod.fst).Nodup := by
  intro l
  induction l with
  | nil => intro m h1 h2; exact ⟨h1, h2⟩
  | cons o rest ih =>
    intro m h1 h2
    simp only [List.foldl_cons]
    exact ih (updateAssoc m o) (updateAssoc_fst_inv h1) (updateAssoc_nodup h2)

theorem merge_values_distinct (l : List Candidate) :
    distinctLowerTitles ((mergeObsList l).map Prod.snd) := by
  obtain ⟨h1, h2⟩ := foldl_updateAssoc_inv l [] (by simp) (by simp)
  unfold distinctLowerTitles
  rw [List.pairwise_map]
  have hkeys : (mergeObsList l).Pairwise (fun kv kw => kv.1 ≠ kw.1) := by
    have h2' := h2
    unfold List.Nodup at h2'
    exact List.pairwise_map.mp h2'
  refine hkeys.imp_of_mem ?_
  intro kv kw hv hw hne
  rw [h1 kv hv, h1 kw hw] at hne
  exact hne

theorem sorted_distinct_strict {l : List Candidate}
    (hs : l.Pairwise (fun a b => candLE a b = true)) (hd : distinctLowerTitles l) :
    l.Pairwise rankStrictDesc :=
  (hs.and hd).imp (fun h => candLE_strict h.1 h.2)

instance : IsAntisymm Candidate rankStrictDesc := by
  constructor
  intro a b h1 h2
  exfalso
  rcases h1 with h1 | ⟨h1e, h1c⟩
  · rcases h2 with h2 | ⟨h2e, h2c⟩
    · omega
    · omega
  · rcases h2 with h2 | ⟨h2e, h2c⟩
    · omega
    · have := charsLT_asymm h1c
      rw [h2c] at this
      exact absurd this (by simp)

theorem sortCands_eq_of_sorted {l : List Candidate}
    (hs : l.Pairwise (fun a b => candLE a b = true)) (hd : distinctLowerTitles l) :
    sortCands l = l := by
  have hperm := sortCands_perm l
  have hd2 : distinctLowerTitles (sortCands l) := by
    unfold distinctLowerTitles at hd ⊢
    exact (hperm.pairwise_iff (fun {_ _} h => Ne.symm h)).mpr hd
  have hstrict1 := sorted_distinct_strict (sortCands_sorted l) hd2
  have hstrict2 := sorted_distinct_strict hs hd
  exact List.eq_of_perm_of_sorted hperm hstrict1 hstrict2

theorem rank_observations_pairwise (l : List Candidate) :
    (rank_observations l).Pairwise rankStrictDesc := by
  unfold rank_observations
  by_cases h : (sortCands ((mergeObsList l).map Prod.snd)).isEmpty = true
  · simp [h]
  · simp only [h, if_false]
    have hd : distinctLowerTitles (sortCands ((mergeObsList l).map Prod.snd)) := by
      unfold distinctLowerTitles
      exact ((sortCands_perm _).pairwise_iff (fun {_ _} hne => Ne.symm hne)).mpr
        (merge_values_distinct l)
    exact sorted_distinct_strict (sortCands_sorted _) hd

/-- C2 (amended): the ranked candidate list produced by the ranking phase is
always sorted by score descending with ties broken by lowercased title
DESCENDING (the source sorts the tuple `(score, lowercased title)` with
`reverse=True`, which reverses both components), and the order is a
deterministic function of the observations, independent of the iteration
order of the candidate map. -/
theorem ranked_candidates_sorted_score_desc_title_desc
    (s : String → SearchResult) (qr : String → SummaryResult) (pr : String → PageResult) :
    ((gather_mining_wiki_context s qr pr).ranked_candidates).Pairwise rankStrictDesc := by
  unfold gather_mining_wiki_context
  exact rank_observations_pairwise _

/-- Counterexample for C2 as stated: a run whose two tied candidates come out
in lowercased-title DESCENDING order, violating the claimed ascending
tie-break. -/
theorem ranked_tie_not_title_ascending :
    (gather_mining_wiki_context tieSearch failSummary failPage).ranked_candidates =
      [⟨"Zz", "", "u1", 0⟩, ⟨"Aa", "", "u2", 0⟩] ∧
    rankedAscSpec
      ((gather_mining_wiki_context tieSearch failSummary failPage).ranked_candidates) = false := by
  constructor
  · rfl
  · rfl

theorem foldl_updateAssoc_all_fresh : ∀ (l : List Candidate) (m : List (String × Candidate)),
    (∀ o ∈ l, ∀ kv ∈ m, kv.1 ≠ pyLower o.title) → distinctLowerTitles l →
      l.foldl updateAssoc m = m ++ l.map (fun o => (pyLower o.title, o)) := by
  intro l
  induction l with
  | nil => intro m _ _; simp
  | cons o rest ih =>
    intro m hfresh hd
    rcases List.pairwise_cons.mp hd with ⟨hohd, hdrest⟩
    simp only [List.foldl_cons]
    rw [updateAssoc_fresh m o (fun kv hv => hfresh o (List.mem_cons_self o rest) kv hv)]
    rw [ih (m ++ [(pyLower o.title, o)]) ?_ hdrest]
    · simp
    · intro o2 ho2 kv hkv
      rcases List.mem_append.mp hkv with hin | hin
      · exact hfresh o2 (List.mem_cons_of_mem _ ho2) kv hin
      · simp only [List.mem_singleton] at hin
        subst hin
        exact hohd o2 ho2
  
theorem merge_values_of_distinct (l : List Candidate) (hd : distinctLowerTitles l) :
    (mergeObsList l).map Prod.snd = l := by
  unfold mergeObsList
  rw [foldl_updateAssoc_all_fresh l [] (by simp) hd]
  have hid : (Prod.snd ∘ fun o : Candidate => (pyLower o.title, o)) = id := rfl
  simp [hid]

theorem sortCands_eq_of_perm {l1 l2 : List Candidate} (hp : l1.Perm l2)
    (hd : distinctLowerTitles l1) : sortCands l1 = sortCands l2 := by
  have hd2 : distinctLowerTitles l2 := by
    unfold distinctLowerTitles at hd ⊢
    exact (hp.pairwise_iff (fun {_ _} h => Ne.symm h)).mp hd
  have hperm : (sortCands l1).Perm (sortCands l2) :=
    ((sortCands_perm l1).trans hp).trans (sortCands_perm l2).symm
  have hda : distinctLowerTitles (sortCands l1) := by
    unfold distinctLowerTitles at hd ⊢
    exact ((sortCands_perm l1).pairwise_iff (fun {_ _} h => Ne.symm h)).mpr hd
  have hdb : distinctLowerTitles (sortCands l2) := by
    unfold distinctLowerTitles at hd2 ⊢
    exact ((sortCands_perm l2).pairwise_iff (fun {_ _} h => Ne.symm h)).mpr hd2
  exact List.eq_of_perm_of_sorted hperm
    (sorted_distinct_strict (sortCands_sorted l1) hda)
    (sorted_distinct_strict (sortCands_sorted l2) hdb)

/-- C6 (amended): when all observations carry pairwise distinct lowercased
titles, ranking is order-independent — any arrival order of the same
observations yields the identical ranked list — and ranking is idempotent for
every observation stream.  (As literally stated the claim fails: for two
observations sharing a lowercased title, the surviving title, description,
and url depend on arrival order; see the counterexample.) -/
theorem ranking_order_independent_and_idempotent :
    (∀ l1 l2 : List Candidate, l1.Perm l2 → distinctLowerTitles l1 →
        rank_observations l1 = rank_observations l2) ∧
    (∀ l : List Candidate, rank_observations (rank_observations l) = rank_observations l) := by
  constructor
  · intro l1 l2 hp hd
    have hd2 : distinctLowerTitles l2 := by
      unfold distinctLowerTitles at hd ⊢
      exact (hp.pairwise_iff (fun {_ _} h => Ne.symm h)).mp hd
    unfold rank_observations
    rw [merge_values_of_distinct l1 hd, merge_values_of_distinct l2 hd2,
      sortCands_eq_of_perm hp hd]
  · intro l
    by_cases hr : (sortCands ((mergeObsList l).map Prod.snd)).isEmpty = true
    · have h1 : rank_observations l = [defaultCandidate] := by
        unfold rank_observations
        simp [hr]
      rw [h1]
      rfl
    · have hdv : distinctLowerTitles (sortCands ((mergeObsList l).map Prod.snd)) := by
        unfold distinctLowerTitles
        exact ((sortCands_perm _).pairwise_iff (fun {_ _} h => Ne.symm h)).mpr
          (merge_values_distinct l)
      have h1 : rank_observations l = sortCands ((mergeObsList l).map Prod.snd) := by
        unfold rank_observations
        simp [hr]
      rw [h1]
      unfold rank_observations
      rw [merge_values_of_distinct _ hdv]
      rw [sortCands_eq_of_sorted (sortCands_sorted _) hdv]
      simp only [Bool.not_eq_true] at hr
      simp [hr]

/-- Witness for C6 (amended) at a concrete pair of arrival orders of the same
two distinct-titled observations. -/
theorem ranking_order_independent_witness :
    ([⟨"Venture", "x", "u1", 9⟩, ⟨"Ore", "y", "u2", 9⟩] : List Candidate).Perm
        [⟨"Ore", "y", "u2", 9⟩, ⟨"Venture", "x", "u1", 9⟩] ∧
    distinctLowerTitles [⟨"Venture", "x", "u1", 9⟩, ⟨"Ore", "y", "u2", 9⟩] ∧
    rank_observations [⟨"Venture", "x", "u1", 9⟩, ⟨"Ore", "y", "u2", 9⟩] =
      rank_observations [⟨"Ore", "y", "u2", 9⟩, ⟨"Venture", "x", "u1", 9⟩] := by
  refine ⟨?_, ?_, ?_⟩
  · exact List.Perm.swap _ _ _
  · unfold distinctLowerTitles
    refine List.pairwise_cons.mpr ⟨?_, by simp⟩
    intro b hb
    simp only [List.mem_singleton] at hb
    subst hb
    decide
  · refine ranking_order_independent_and_idempotent.1 _ _ (List.Perm.swap _ _ _) ?_
    unfold distinctLowerTitles
    refine List.pairwise_cons.mpr ⟨?_, by simp⟩
    intro b hb
    simp only [List.mem_singleton] at hb
    subst hb
    decide

/-- Counterexample for C6 as stated: the same two observations, which share a
lowercased title, presented in the two arrival orders produce different final
ranked lists (the surviving first-seen title differs). -/
theorem ranking_depends_on_arrival_order :
    ([⟨"Mining", "a", "u", 5⟩, ⟨"mining", "b", "u", 5⟩] : List Candidate).Perm
        [⟨"mining", "b", "u", 5⟩, ⟨"Mining", "a", "u", 5⟩] ∧
    rank_observations [⟨"Mining", "a", "u", 5⟩, ⟨"mining", "b", "u", 5⟩] ≠
      rank_observations [⟨"mining", "b", "u", 5⟩, ⟨"Mining", "a", "u", 5⟩] := by
  constructor
  · exact List.Perm.swap _ _ _
  · decide

theorem sublist_skip {α : Type} {hs pre rest : List α} (h : hs.Sublist rest) :
    hs.Sublist (pre ++ rest) :=
  h.trans (List.sublist_append_right pre rest)

theorem sublist_step {α : Type} {x : α} {hs pre rest : List α} (h : hs.Sublist rest) :
    (x :: hs).Sublist ((x :: pre) ++ rest) :=
  List.Sublist.cons₂ x (h.trans (List.sublist_append_right pre rest))

/-- C1: for every valid profile and every gathered context the rendered plan
contains all nine required section headers in the fixed order; and when every
seed search fails the ranker synthesizes exactly the single default Mining
candidate with score 1, so the Sources section still lists one entry and the
document stays structurally complete. -/
theorem plan_contains_all_sections_in_order (p : Profile) (hp : ValidProfile p)
    (ctx : GatheredContext) :
    (MINING_PLAN_SECTION_ORDER.map (fun s => "## " ++ s)).Sublist (planLines p ctx) ∧
    (∀ (qr : String → SummaryResult) (pr : String → PageResult),
        (gather_mining_wiki_context failSearch qr pr).ranked_candidates = [defaultCandidate]) ∧
    (∀ (qr : String → SummaryResult) (pr : String → PageResult),
        sourcesList (gather_mining_wiki_context failSearch qr pr) =
          ["- Mining: " ++ build_wiki_url "Mining"]) := by
  refine ⟨?_, fun qr pr => rfl, fun qr pr => rfl⟩
  have hmap : MINING_PLAN_SECTION_ORDER.map (fun s => "## " ++ s) =
      ["## Profile + Assumptions", "## Day 1 Plan", "## Week 1 Plan", "## Shopping List",
       "## Skill Priorities (Alpha-safe)", "## Safety and Loss Prevention",
       "## If Things Go Wrong", "## Next Session Check-in Questions", "## Sources"] := rfl
  rw [hmap]
  unfold planLines titleChunk profileChunk day1Chunk week1Chunk shoppingChunk skillsChunk
    safetyChunk wrongChunk checkinChunk sourcesChunk
  simp only [List.append_assoc]
  refine sublist_skip ?_
  refine sublist_step ?_
  refine sublist_step ?_
  refine sublist_skip ?_
  refine sublist_step ?_
  refine sublist_skip ?_
  refine sublist_step ?_
  refine sublist_step ?_
  refine sublist_step ?_
  refine sublist_step ?_
  refine sublist_step ?_
  refine sublist_skip ?_
  exact List.Sublist.cons₂ _ (List.nil_sublist _)

/-- Witness for C1 at the default profile and an arbitrary concrete context. -/
theorem plan_contains_all_sections_in_order_witness :
    ValidProfile ⟨3 / 2, 4, 0, "brand_new", "conservative", "", "", ""⟩ ∧
    (MINING_PLAN_SECTION_ORDER.map (fun s => "## " ++ s)).Sublist
      (planLines ⟨3 / 2, 4, 0, "brand_new", "conservative", "", "", ""⟩
        ⟨[], [], [], [], false, []⟩) := by
  have hv : ValidProfile ⟨3 / 2, 4, 0, "brand_new", "conservative", "", "", ""⟩ := by
    unfold ValidProfile
    norm_num
  exact ⟨hv, (plan_contains_all_sections_in_order _ hv ⟨[], [], [], [], false, []⟩).1⟩

theorem firstChar_append (s t : String) (h : s.data ≠ []) : firstChar (s ++ t) = firstChar s := by
  unfold firstChar
  rw [String.data_append]
  cases hd : s.data with
  | nil => exact absurd hd h
  | cons c cs => simp

theorem data_append_ne {s : String} (t : String) (hs : s.data ≠ []) : (s ++ t).data ≠ [] := by
  rw [String.data_append]
  simp only [ne_eq, List.append_eq_nil, not_and]
  intro h
  exact absurd h hs

theorem firstChar_append_ne {s t : String} {c : Char} (hs : s.data ≠ [])
    (hc : firstChar s ≠ some c) : firstChar (s ++ t) ≠ some c := by
  rw [firstChar_append s t hs]
  exact hc

theorem ne_of_firstChar {a b : String} (h : firstChar a ≠ firstChar b) : a ≠ b :=
  fun e => h (by rw [e])

theorem mem_numberedFrom_bounds : ∀ (its : List String) (n : Nat) (l : String),
    l ∈ numberedFrom n its →
      ∃ m it, n ≤ m ∧ m < n + its.length ∧ l = toString m ++ ". " ++ it := by
  intro its
  induction its with
  | nil =>
    intro n l h
    simp [numberedFrom] at h
  | cons a rest ih =>
    intro n l h
    simp only [numberedFrom, List.mem_cons] at h
    rcases h with rfl | h2
    · exact ⟨n, a, le_refl n, by simp, rfl⟩
    · obtain ⟨m, it, h1, h2, h3⟩ := ih (n + 1) l h2
      exact ⟨m, it, by omega, by simp only [List.length_cons]; omega, h3⟩

theorem mem_sourceLinesAux : ∀ (cs : List Candidate) (seen : List String) (l : String),
    l ∈ sourceLinesAux cs seen → ∃ c : Candidate, l = "- " ++ (c.title ++ (": " ++ c.url)) := by
  intro cs
  induction cs with
  | nil =>
    intro seen l h
    simp [sourceLinesAux] at h
  | cons c rest ih =>
    intro seen l h
    unfold sourceLinesAux at h
    by_cases hc : (c.url = "" || seen.contains c.url) = true
    · rw [if_pos hc] at h
      exact ih _ l h
    · rw [if_neg hc] at h
      rcases List.mem_cons.mp h with rfl | h2
      · exact ⟨c, rfl⟩
      · exact ih _ l h2

theorem notN_numbered {l : String} {its : List String} (hits : its.length ≤ 5)
    (h : l ∈ numberedFrom 1 its) : firstChar l ≠ some 'N' := by
  obtain ⟨m, it, h1, h2, rfl⟩ := mem_numberedFrom_bounds its 1 l h
  have hm : m ≤ 5 := by omega
  interval_cases m
  · exact firstChar_append_ne (by decide) (by decide)
  · exact firstChar_append_ne (by decide) (by decide)
  · exact firstChar_append_ne (by decide) (by decide)
  · exact firstChar_append_ne (by decide) (by decide)
  · exact firstChar_append_ne (by decide) (by decide)

theorem notN_format_source (s : String) (ctx : GatheredContext) :
    firstChar (format_source s ctx) ≠ some 'N' := by
  unfold format_source
  exact firstChar_append_ne (by decide) (by decide)

theorem notN_titleChunk : ∀ l ∈ titleChunk, firstChar l ≠ some 'N' := by
  decide

theorem notN_profileChunk (p : Profile) (ctx : GatheredContext) :
    ∀ l ∈ profileChunk p ctx, firstChar l ≠ some 'N' := by
  intro l h
  simp only [profileChunk, List.mem_cons, List.not_mem_nil, or_false] at h
  rcases h with rfl | rfl | rfl | rfl | rfl | rfl | rfl | rfl | rfl
  · decide
  · exact firstChar_append_ne (by decide) (by decide)
  · exact firstChar_append_ne (by decide) (by decide)
  · exact firstChar_append_ne (by decide) (by decide)
  · exact firstChar_append_ne (by decide) (by decide)
  · exact firstChar_append_ne (by decide) (by decide)
  · exact firstChar_append_ne (by decide) (by decide)
  · exact notN_format_source _ ctx
  · decide

theorem notN_day1Chunk (p : Profile) (ctx : GatheredContext) :
    ∀ l ∈ day1Chunk p ctx, firstChar l ≠ some 'N' := by
  intro l h
  unfold day1Chunk at h
  rcases List.mem_cons.mp h with rfl | h
  · decide
  rcases List.mem_append.mp h with h | h
  · refine notN_numbered ?_ h
    simp [day1Items, day1AllItems, List.length_take]
  rcases List.mem_cons.mp h with rfl | h
  · decide
  rcases List.mem_cons.mp h with rfl | h
  · exact notN_format_source _ ctx
  rcases List.mem_cons.mp h with rfl | h
  · decide
  · simp at h

theorem notN_week1Chunk (p : Profile) (ctx : GatheredContext) :
    ∀ l ∈ week1Chunk p ctx, firstChar l ≠ some 'N' := by
  intro l h
  unfold week1Chunk at h
  rcases List.mem_cons.mp h with rfl | h
  · decide
  rcases List.mem_append.mp h with h | h
  · refine notN_numbered ?_ h
    cases hc : confusionMode (pyLower p.recent_outcome) <;> simp [week1Items, hc]
  rcases List.mem_cons.mp h with rfl | h
  · decide
  rcases List.mem_cons.mp h with rfl | h
  · exact notN_format_source _ ctx
  rcases List.mem_cons.mp h with rfl | h
  · decide
  · simp at h

theorem notN_shoppingChunk (p : Profile) (ctx : GatheredContext) :
    ∀ l ∈ shoppingChunk p ctx, firstChar l ≠ some 'N' := by
  intro l h
  simp only [shoppingChunk, List.mem_cons, List.not_mem_nil, or_false] at h
  rcases h with rfl | rfl | rfl | rfl | rfl | rfl | rfl
  · decide
  · exact firstChar_append_ne (by decide) (by decide)
  · decide
  · decide
  · decide
  · exact notN_format_source _ ctx
  · decide

theorem notN_skillsChunk (ctx : GatheredContext) :
    ∀ l ∈ skillsChunk ctx, firstChar l ≠ some 'N' := by
  intro l h
  simp only [skillsChunk, List.mem_cons, List.not_mem_nil, or_false] at h
  rcases h with rfl | rfl | rfl | rfl | rfl | rfl | rfl
  · decide
  · decide
  · decide
  · decide
  · decide
  · exact notN_format_source _ ctx
  · decide

theorem notN_safetyChunk (ctx : GatheredContext) :
    ∀ l ∈ safetyChunk ctx, firstChar l ≠ some 'N' := by
  intro l h
  simp only [safetyChunk, List.mem_cons, List.not_mem_nil, or_false] at h
  rcases h with rfl | rfl | rfl | rfl | rfl | rfl | rfl
  · decide
  · decide
  · decide
  · decide
  · decide
  · exact notN_format_source _ ctx
  · decide

theorem notN_wrongChunk (p : Profile) (ctx : GatheredContext) :
    ∀ l ∈ wrongChunk p ctx, firstChar l ≠ some 'N' := by
  intro l h
  simp only [wrongChunk, List.mem_cons, List.not_mem_nil, or_false] at h
  rcases h with rfl | rfl | rfl | rfl | rfl | rfl
  · decide
  · exact firstChar_append_ne (by decide) (by decide)
  · decide
  · decide
  · exact notN_format_source _ ctx
  · decide

theorem notN_checkinChunk (p : Profile) (ctx : GatheredContext) :
    ∀ l ∈ checkinChunk p ctx, firstChar l ≠ some 'N' := by
  intro l h
  unfold checkinChunk checkinItems at h
  rcases List.mem_cons.mp h with rfl | h
  · decide
  rcases List.mem_append.mp h with h | h
  · rcases List.mem_append.mp h with h | h
    · rcases List.mem_cons.mp h with rfl | h
      · decide
      rcases List.mem_cons.mp h with rfl | h
      · decide
      rcases List.mem_cons.mp h with rfl | h
      · decide
      rcases List.mem_cons.mp h with rfl | h
      · decide
      · simp at h
    · by_cases hq : pyStrip p.questions = ""
      · rw [if_pos hq] at h
        simp at h
      · rw [if_neg hq] at h
        simp only [List.mem_singleton] at h
        subst h
        exact firstChar_append_ne (by decide) (by decide)
  rcases List.mem_cons.mp h with rfl | h
  · exact notN_format_source _ ctx
  rcases List.mem_cons.mp h with rfl | h
  · decide
  · simp at h

theorem notN_sourcesChunk (ctx : GatheredContext) :
    ∀ l ∈ sourcesChunk ctx, firstChar l ≠ some 'N' := by
  intro l h
  simp only [sourcesChunk, List.mem_cons, List.mem_append] at h
  rcases h with rfl | h | h
  · decide
  · obtain ⟨c, rfl⟩ := mem_sourceLinesAux _ _ l h
    exact firstChar_append_ne (by decide) (by decide)
  · by_cases he : (sourcesList ctx).isEmpty = true
    · rw [if_pos he] at h
      simp only [List.mem_singleton] at h
      subst h
      exact firstChar_append_ne (by decide) (by decide)
    · rw [if_neg he] at h
      simp at h

theorem notN_planLines (p : Profile) (ctx : GatheredContext) (herr : ctx.errors = []) :
    ∀ l ∈ planLines p ctx, firstChar l ≠ some 'N' := by
  intro l h
  unfold planLines at h
  simp only [List.mem_append] at h
  rcases h with ((((((((((h | h) | h) | h) | h) | h) | h) | h) | h) | h) | h)
  · exact notN_titleChunk l h
  · exact notN_profileChunk p ctx l h
  · exact notN_day1Chunk p ctx l h
  · exact notN_week1Chunk p ctx l h
  · exact notN_shoppingChunk p ctx l h
  · exact notN_skillsChunk ctx l h
  · exact notN_safetyChunk ctx l h
  · exact notN_wrongChunk p ctx l h
  · exact notN_checkinChunk p ctx l h
  · exact notN_sourcesChunk ctx l h
  · rw [noteChunk, herr] at h
    simp at h

/-- C5: a GatheredContext satisfies the degraded-flag invariant (the source
sets `partial` to `len(errors) > 0`), and for every profile: when the flag is
set the rendered plan contains the reduced-confidence line and the trailing
retry note; when it is clear the plan contains the normal-confidence line and
no retry note. -/
theorem degraded_flag_controls_confidence_and_retry_note (p : Profile) (ctx : GatheredContext)
    (hinv : ctx.hasFailures = true ↔ ctx.errors ≠ []) :
    (∀ (s : String → SearchResult) (qr : String → SummaryResult) (pr : String → PageResult),
        (gather_mining_wiki_context s qr pr).hasFailures = true ↔
          (gather_mining_wiki_context s qr pr).errors ≠ []) ∧
    (ctx.hasFailures = true →
        ("- Confidence: " ++
            "Reduced confidence: some wiki pages timed out or failed; plan uses partial context and conservative defaults.")
            ∈ planLines p ctx ∧
          retryNote ∈ planLines p ctx) ∧
    (ctx.hasFailures = false →
        ("- Confidence: " ++ "Normal confidence: Wiki retrieval completed for core mining pages.")
            ∈ planLines p ctx ∧
          retryNote ∉ planLines p ctx) := by
  refine ⟨?_, ?_, ?_⟩
  · intro s qr pr
    unfold gather_mining_wiki_context
    constructor
    · intro h
      exact List.length_pos.mp (of_decide_eq_true h)
    · intro h
      exact decide_eq_true (List.length_pos.mpr h)
  · intro hpt
    have hconf : confidenceLine ctx =
        "Reduced confidence: some wiki pages timed out or failed; plan uses partial context and conservative defaults." := by
      simp [confidenceLine, hpt]
    constructor
    · have h1 : ("- Confidence: " ++ confidenceLine ctx) ∈ profileChunk p ctx := by
        unfold profileChunk
        simp
      rw [← hconf]
      unfold planLines
      exact List.mem_append_left _ (List.mem_append_left _ (List.mem_append_left _ (List.mem_append_left _ (List.mem_append_left _ (List.mem_append_left _ (List.mem_append_left _ (List.mem_append_left _ (List.mem_append_left _ (List.mem_append_right _ h1)))))))))
    · have h2 : retryNote ∈ noteChunk ctx := by
        unfold noteChunk
        rcases herr : ctx.errors with _ | ⟨e, es⟩
        · exact absurd herr (hinv.mp hpt)
        · simp
      unfold planLines
      exact List.mem_append_right _ h2
  · intro hpf
    have herr : ctx.errors = [] := by
      by_contra hne
      have hh := hinv.mpr hne
      rw [hpf] at hh
      exact absurd hh (by simp)
    have hconf : confidenceLine ctx =
        "Normal confidence: Wiki retrieval completed for core mining pages." := by
      simp [confidenceLine, hpf]
    constructor
    · have h1 : ("- Confidence: " ++ confidenceLine ctx) ∈ profileChunk p ctx := by
        unfold profileChunk
        simp
      rw [← hconf]
      unfold planLines
      exact List.mem_append_left _ (List.mem_append_left _ (List.mem_append_left _ (List.mem_append_left _ (List.mem_append_left _ (List.mem_append_left _ (List.mem_append_left _ (List.mem_append_left _ (List.mem_append_left _ (List.mem_append_right _ h1)))))))))
    · intro hmem
      exact absurd rfl (notN_planLines p ctx herr retryNote hmem)

/-- Witness for C5 at concrete degraded and clean contexts. -/
theorem degraded_flag_controls_confidence_witness :
    (("- Confidence: " ++
        "Reduced confidence: some wiki pages timed out or failed; plan uses partial context and conservative defaults.")
        ∈ planLines ⟨3 / 2, 4, 0, "brand_new", "conservative", "", "", ""⟩
          ⟨[], [], [], ["search:Venture"], true, []⟩ ∧
      retryNote ∈ planLines ⟨3 / 2, 4, 0, "brand_new", "conservative", "", "", ""⟩
        ⟨[], [], [], ["search:Venture"], true, []⟩) ∧
    (("- Confidence: " ++ "Normal confidence: Wiki retrieval completed for core mining pages.")
        ∈ planLines ⟨3 / 2, 4, 0, "brand_new", "conservative", "", "", ""⟩
          ⟨[], [], [], [], false, []⟩ ∧
      retryNote ∉ planLines ⟨3 / 2, 4, 0, "brand_new", "conservative", "", "", ""⟩
        ⟨[], [], [], [], false, []⟩) := by
  constructor
  · exact (degraded_flag_controls_confidence_and_retry_note _
      ⟨[], [], [], ["search:Venture"], true, []⟩ (by simp)).2.1 rfl
  · exact (degraded_flag_controls_confidence_and_retry_note _
      ⟨[], [], [], [], false, []⟩ (by simp)).2.2 rfl

theorem firstChar_format_source (s : String) (ctx : GatheredContext) :
    firstChar (format_source s ctx) = some 'S' := by
  unfold format_source
  rw [firstChar_append _ _ (by decide)]
  rfl

/-- C7: the If Things Go Wrong section contains exactly one fallback-guidance
sentence — the one selected by the fixed priority order recovery > low-isk >
confusion > generic — and whenever a loss keyword occurs in the case-folded
recent outcome the ship-loss recovery sentence is chosen, even when low-isk or
confusion keywords also match. -/
theorem fallback_guidance_single_sentence_priority (p : Profile) (ctx : GatheredContext) :
    (wrongChunk p ctx).filter
        (fun l => decide (l ∈ fallbackSentences.map (fun s => "- " ++ s))) =
      ["- " ++ fallbackIntro (pyLower p.recent_outcome)] ∧
    fallbackIntro (pyLower p.recent_outcome) ∈ fallbackSentences ∧
    (recoveryMode (pyLower p.recent_outcome) = true →
        fallbackIntro (pyLower p.recent_outcome) =
          "You reported a ship loss. Switch to a safer high-sec loop for the next 2 sessions.") := by
  have hfs : (decide (format_source "If Things Go Wrong" ctx ∈
      fallbackSentences.map (fun s => "- " ++ s))) = false := by
    apply decide_eq_false
    intro hm
    simp only [fallbackSentences, List.map_cons, List.map_nil, List.mem_cons,
      List.not_mem_nil, or_false] at hm
    rcases hm with h | h | h | h <;>
      exact absurd (congrArg firstChar h) (by rw [firstChar_format_source]; decide)
  have hfb : (decide (("- " ++ fallbackIntro (pyLower p.recent_outcome)) ∈
      fallbackSentences.map (fun s => "- " ++ s))) = true := by
    unfold fallbackIntro
    split_ifs <;> decide
  have h1 : (decide (("## If Things Go Wrong" : String) ∈
      fallbackSentences.map (fun s => "- " ++ s))) = false := by decide
  have h2 : (decide (("- Recovery loop: one short safe run, sell ore, refill replacement fund, reassess fit." : String) ∈
      fallbackSentences.map (fun s => "- " ++ s))) = false := by decide
  have h3 : (decide (("- If two losses happen in a row, downgrade risk and focus on safety drills only." : String) ∈
      fallbackSentences.map (fun s => "- " ++ s))) = false := by decide
  have h4 : (decide (("" : String) ∈ fallbackSentences.map (fun s => "- " ++ s))) = false := by
    decide
  refine ⟨?_, ?_, ?_⟩
  · unfold wrongChunk
    simp only [List.filter_cons, List.filter_nil, hfs, hfb, h1, h2, h3, h4]
    simp
  · unfold fallbackIntro
    split_ifs <;> decide
  · intro h
    unfold fallbackIntro
    rw [if_pos h]
    decide

/-- Witness for C7 at a recent outcome matching all three keyword sets:
the recovery branch wins. -/
theorem fallback_guidance_priority_witness :
    recoveryMode (pyLower "I lost my ship, I am broke and confused") = true ∧
    lowIskRecovery (pyLower "I lost my ship, I am broke and confused") = true ∧
    confusionMode (pyLower "I lost my ship, I am broke and confused") = true ∧
    fallbackIntro (pyLower "I lost my ship, I am broke and confused") =
      "You reported a ship loss. Switch to a safer high-sec loop for the next 2 sessions." :=
  ⟨by decide, by decide, by decide,
    (fallback_guidance_single_sentence_priority
      ⟨3 / 2, 4, 0, "brand_new", "conservative", "", "I lost my ship, I am broke and confused", ""⟩
      ⟨[], [], [], [], false, []⟩).2.2 (by decide)⟩

/-- Counterexample for C8 as stated: the profile whose freeform questions
field is the non-empty string " " is valid, yet the check-in section has only
the four fixed items, because the code keys the fifth item on the stripped
field. -/
theorem checkin_blank_questions_counterexample :
    ValidProfile ⟨3 / 2, 4, 0, "brand_new", "conservative", "", "", " "⟩ ∧
    (⟨3 / 2, 4, 0, "brand_new", "conservative", "", "", " "⟩ : Profile).questions ≠ "" ∧
    (checkinItems ⟨3 / 2, 4, 0, "brand_new", "conservative", "", "", " "⟩).length = 4 := by
  refine ⟨?_, by decide, by decide⟩
  unfold ValidProfile
  norm_num
  all_goals decide

/-- C8 (amended): the check-in section has exactly 5 numbered items exactly
when the profile's questions field is non-empty after stripping whitespace —
the 5th echoing the stripped input — and exactly 4 items when the stripped
field is empty. -/
theorem checkin_question_count_stripped (p : Profile) (hp : ValidProfile p) :
    (pyStrip p.questions ≠ "" →
        (checkinItems p).length = 5 ∧
          (checkinItems p).getLast? =
            some ("5. Player focus question to address next: " ++ pyStrip p.questions)) ∧
    (pyStrip p.questions = "" → (checkinItems p).length = 4) := by
  constructor
  · intro h
    unfold checkinItems
    rw [if_neg h]
    exact ⟨rfl, rfl⟩
  · intro h
    unfold checkinItems
    rw [if_pos h]
    rfl

/-- Witness for C8 (amended) at a concrete non-blank questions field. -/
theorem checkin_question_count_witness :
    ValidProfile ⟨3 / 2, 4, 0, "brand_new", "conservative", "", "", "What next?"⟩ ∧
    (checkinItems ⟨3 / 2, 4, 0, "brand_new", "conservative", "", "", "What next?"⟩).length = 5 ∧
    (checkinItems ⟨3 / 2, 4, 0, "brand_new", "conservative", "", "", "What next?"⟩).getLast? =
      some ("5. Player focus question to address next: " ++
        pyStrip (Profile.mk (3 / 2) 4 0 "brand_new" "conservative" "" "" "What next?").questions) := by
  have hv : ValidProfile ⟨3 / 2, 4, 0, "brand_new", "conservative", "", "", "What next?"⟩ := by
    unfold ValidProfile
    norm_num
    all_goals decide
  have h := (checkin_question_count_stripped _ hv).1 (by decide)
  exact ⟨hv, h.1, h.2⟩

theorem pyStartsWith_append_left : ∀ (xs ys w : List Char),
    pyStartsWith (xs ++ ys) (xs ++ w) = pyStartsWith ys w := by
  intro xs
  induction xs with
  | nil => intro ys w; rfl
  | cons a rest ih =>
    intro ys w
    simp [pyStartsWith, ih]

theorem pyStartsWith_self_append : ∀ (xs zs : List Char), pyStartsWith xs (xs ++ zs) = true := by
  intro xs
  induction xs with
  | nil => intro zs; rfl
  | cons a rest ih =>
    intro zs
    simp [pyStartsWith, ih]

theorem validate_numeric_bool_fails (b : Bool) (minv maxv : Rat) (f : String) (io : Bool) :
    (validate_numeric_input (PyVal.bool b) minv maxv f io).1 = false := by
  cases io <;> simp [validate_numeric_input, isPyInt, isPyBool, isPyNumber]

theorem validate_numeric_msg_has_must_be (v : PyVal) (minv maxv : Rat) (f : String)
    (io : Bool) (h : (validate_numeric_input v minv maxv f io).1 = false) :
    pyStartsWith (f ++ " must be ").data
      ((validate_numeric_input v minv maxv f io).2).data = true := by
  unfold validate_numeric_input at h ⊢
  split_ifs at h ⊢ <;>
    (simp only [String.data_append, List.append_assoc]
     rw [pyStartsWith_append_left]
     exact pyStartsWith_self_append _ _)

theorem generate_of_normalize_none (args : List (String × PyVal)) (ctx : GatheredContext)
    (h : (normalize_mining_plan_inputs args).1 = Option.none) :
    generate_newbro_mining_plan args ctx = "❌ " ++ (normalize_mining_plan_inputs args).2 := by
  unfold generate_newbro_mining_plan
  rcases hn : normalize_mining_plan_inputs args with ⟨op, msg⟩
  cases op with
  | none => rfl
  | some p =>
    rw [hn] at h
    exact Option.noConfusion h

/-- C9: an argument bag giving a Python boolean for hours_per_session,
sessions_per_week, or starting_isk is rejected by
`normalize_mining_plan_inputs` (booleans are never read as 0/1): the result
carries no profile, the error message has the form `<field> must be ...` for
one of the three numeric fields, and the tool handler returns the error
instead of a plan for every gathered context. -/
theorem boolean_numeric_inputs_rejected (args : List (String × PyVal))
    (hb : isPyBool (getField args "hours_per_session") = true ∨
          isPyBool (getField args "sessions_per_week") = true ∨
          isPyBool (getField args "starting_isk") = true) :
    (normalize_mining_plan_inputs args).1 = Option.none ∧
    (∃ f ∈ (["hours_per_session", "sessions_per_week", "starting_isk"] : List String),
        pyStartsWith (f ++ " must be ").data
          ((normalize_mining_plan_inputs args).2).data = true) ∧
    (∀ ctx, generate_newbro_mining_plan args ctx =
        "❌ " ++ (normalize_mining_plan_inputs args).2) := by
  have key : (normalize_mining_plan_inputs args).1 = Option.none ∧
      ∃ f ∈ (["hours_per_session", "sessions_per_week", "starting_isk"] : List String),
        pyStartsWith (f ++ " must be ").data
          ((normalize_mining_plan_inputs args).2).data = true := by
    by_cases hr1 : (validate_numeric_input (getField args "hours_per_session") (1 / 2) 8
        "hours_per_session" false).1 = false
    · have hn : normalize_mining_plan_inputs args =
          (Option.none, (validate_numeric_input (getField args "hours_per_session") (1 / 2) 8
            "hours_per_session" false).2) := by
        simp only [normalize_mining_plan_inputs]
        rw [hr1]
        rfl
      rw [hn]
      exact ⟨rfl, "hours_per_session", by decide,
        validate_numeric_msg_has_must_be _ _ _ _ _ hr1⟩
    · rw [Bool.not_eq_false] at hr1
      by_cases hr2 : (validate_numeric_input (getField args "sessions_per_week") 1 14
          "sessions_per_week" true).1 = false
      · have hn : normalize_mining_plan_inputs args =
            (Option.none, (validate_numeric_input (getField args "sessions_per_week") 1 14
              "sessions_per_week" true).2) := by
          simp only [normalize_mining_plan_inputs]
          rw [hr1, hr2]
          rfl
        rw [hn]
        exact ⟨rfl, "sessions_per_week", by decide,
          validate_numeric_msg_has_must_be _ _ _ _ _ hr2⟩
      · rw [Bool.not_eq_false] at hr2
        have hr3 : (validate_numeric_input (getField args "starting_isk") 0 10000000000
            "starting_isk" true).1 = false := by
          rcases hb with hb | hb | hb
          · exfalso
            rcases hx : getField args "hours_per_session" with n | q | b | s | _ | _ <;>
              rw [hx] at hb <;> simp [isPyBool] at hb
            rw [hx, validate_numeric_bool_fails] at hr1
            exact absurd hr1 (by simp)
          · exfalso
            rcases hx : getField args "sessions_per_week" with n | q | b | s | _ | _ <;>
              rw [hx] at hb <;> simp [isPyBool] at hb
            rw [hx, validate_numeric_bool_fails] at hr2
            exact absurd hr2 (by simp)
          · rcases hx : getField args "starting_isk" with n | q | b | s | _ | _ <;>
              rw [hx] at hb <;> simp [isPyBool] at hb
            exact validate_numeric_bool_fails _ _ _ _ _
        have hn : normalize_mining_plan_inputs args =
            (Option.none, (validate_numeric_input (getField args "starting_isk") 0 10000000000
              "starting_isk" true).2) := by
          simp only [normalize_mining_plan_inputs]
          rw [hr1, hr2, hr3]
          rfl
        rw [hn]
        exact ⟨rfl, "starting_isk", by decide,
          validate_numeric_msg_has_must_be _ _ _ _ _ hr3⟩
  exact ⟨key.1, key.2, fun ctx => generate_of_normalize_none args ctx key.1⟩

/-- Witness for C9 at a bag passing a boolean for sessions_per_week. -/
theorem boolean_numeric_inputs_rejected_witness :
    isPyBool (getField [("sessions_per_week", PyVal.bool true)] "sessions_per_week") = true ∧
    (normalize_mining_plan_inputs [("sessions_per_week", PyVal.bool true)]).1 = Option.none := by
  refine ⟨by decide, ?_⟩
  exact (boolean_numeric_inputs_rejected _ (Or.inr (Or.inl (by decide)))).1

/-- C10: two argument bags agreeing on the eight recognized profile fields
produce the same validation outcome (same profile-or-none and same message),
and for every gathered context the tool handler renders byte-identical
output — unrecognized keys never cause a validation error and never influence
the document. -/
theorem unknown_keys_do_not_affect_outcome (a1 a2 : List (String × PyVal))
    (h : ∀ k ∈ recognizedFields, lookupArg a1 k = lookupArg a2 k) :
    normalize_mining_plan_inputs a1 = normalize_mining_plan_inputs a2 ∧
    ∀ ctx, generate_newbro_mining_plan a1 ctx = generate_newbro_mining_plan a2 ctx := by
  have hg : ∀ k ∈ recognizedFields, getField a1 k = getField a2 k := by
    intro k hk
    unfold getField
    rw [h k hk]
  have e1 := hg "hours_per_session" (by decide)
  have e2 := hg "sessions_per_week" (by decide)
  have e3 := hg "starting_isk" (by decide)
  have e4 := hg "experience_level" (by decide)
  have e5 := hg "risk_preference" (by decide)
  have e6 := hg "current_assets" (by decide)
  have e7 := hg "recent_outcome" (by decide)
  have e8 := hg "questions" (by decide)
  have hnorm : normalize_mining_plan_inputs a1 = normalize_mining_plan_inputs a2 := by
    unfold normalize_mining_plan_inputs
    rw [e1, e2, e3, e4, e5, e6, e7, e8]
  refine ⟨hnorm, fun ctx => ?_⟩
  unfold generate_newbro_mining_plan
  rw [hnorm]

/-- Witness for C10: a bag with only an unrecognized key behaves exactly like
the empty bag. -/
theorem unknown_keys_do_not_affect_outcome_witness :
    (∀ k ∈ recognizedFields,
        lookupArg [("favorite_color", PyVal.str "red")] k = lookupArg [] k) ∧
    normalize_mining_plan_inputs [("favorite_color", PyVal.str "red")] =
      normalize_mining_plan_inputs [] := by
  have hk : ∀ k ∈ recognizedFields,
      lookupArg [("favorite_color", PyVal.str "red")] k = lookupArg [] k := by decide
  exact ⟨hk, (unknown_keys_do_not_affect_outcome _ _ hk).1⟩
